import Mathlib

/-!
Shallow embedding of the Import-Export-Agent trade-intelligence pipeline
(`src/models.py`, `src/utils.py`, `src/services.py`) together with proofs of
the specification claims about it.

Modelling conventions:
* Python `Optional[T]` fields become `Option` fields; `None` is `none`.
* Python `float` values are modelled as exact rationals (`ℚ`); the float
  literals `1.2` and `0.8` become `6/5` and `4/5`.
* Python's process-seeded `hash` is an arbitrary function `String → Int`
  passed explicitly; the per-field `random` draws are an explicit `FieldDraws`
  input per synthesized record, so reproducibility statements quantify over
  them.
* Python exceptions that the code can actually raise on the modelled paths
  (`KeyError` from `df.groupby` on a missing column, `TypeError` from
  `None + str`) are modelled with `Except PyError`.
* String helpers from the Python runtime (`str.lower`, `in`, `urlparse`)
  are re-implemented on the underlying character lists so that everything
  evaluates inside the kernel.
-/

namespace ImportExport

/-- A scalar value appearing in a dumped trade record (Python str / float /
int; floats modelled as exact rationals). -/
inductive Value where
  | str (s : String)
  | num (q : ℚ)
  | int (z : ℤ)
  deriving DecidableEq

/-- Model of `models.ParsedQuery`: the query parsed by the Perceive Agent. -/
structure ParsedQuery where
  hsn_code : Option String
  product_name : Option String
  country : Option String
  intent : Option String
  keywords : List String
  deriving DecidableEq

/-- Model of `models.Recommendation`. -/
structure Recommendation where
  title : String
  description : String
  deriving DecidableEq

/-- Model of `models.TradeDataRecord`: a single trade data record; every field is
optional, absence meaning "not available from source". -/
structure TradeDataRecord where
  country : Option String
  volume_usd : Option ℚ
  volume_unit : Option ℚ
  unit : Option String
  year : Option ℤ
  source : Option String
  hscode : Option String
  product_description : Option String
  hs_product_description : Option String
  shipper_name : Option String
  consignee_name : Option String
  std_quantity : Option ℚ
  std_unit : Option String
  country_of_destination : Option String
  package_type : Option String
  country_of_origin : Option String
  quantity : Option ℚ
  bill_of_lading_no : Option String
  consignee_address : Option String
  supplier_address : Option String
  container_teu : Option ℚ
  port_of_origin : Option String
  port_of_destination : Option String
  port_of_delivery : Option String
  gross_weight : Option ℚ
  measurement : Option String
  freight_term : Option String
  forwarder_name : Option String
  declarant_name : Option String
  notify_party_address : Option String
  declarant_name_2 : Option String
  marks_number : Option String
  contact_number_booking : Option String
  contact_email_booking : Option String

/-- The all-absent trade record. -/
def emptyTradeRecord : TradeDataRecord :=
  ⟨none, none, none, none, none, none, none, none, none, none, none, none,
   none, none, none, none, none, none, none, none, none, none, none, none,
   none, none, none, none, none, none, none, none, none, none⟩

/-- Model of Python `str.lower()` (character-wise, as used on the ASCII
country aliases and URLs in the source). -/
def pyLower (s : String) : String := String.mk (s.data.map Char.toLower)

/-- Python truthiness of an optional string: `None` and `""` are falsy. -/
def pyTruthy : Option String → Bool
  | none => false
  | some s => !s.data.isEmpty

/-- Python `x or dflt` where `x` is an optional string (falsy values are
replaced by the default). -/
def pyOrElse (o : Option String) (dflt : String) : String :=
  match o with
  | none => dflt
  | some s => if s.data.isEmpty then dflt else s

/-- The alias table of `utils.normalize_country_name`. -/
def country_map : List (String × String) :=
  [("usa", "United States"), ("india", "India"), ("germany", "Germany"),
   ("uk", "United Kingdom"), ("united kingdom", "United Kingdom"),
   ("china", "China"), ("japan", "Japan"), ("eu", "European Union")]

/-- Model of `utils.normalize_country_name`: look the lower-cased name up in the alias
table; unmapped names pass through unchanged. -/
def normalize_country_name (c : String) : String :=
  ((country_map.find? (fun p => p.1 == pyLower c)).map Prod.snd).getD c

/-- Helper: normalizing twice is the same as normalizing once. -/
theorem normalize_norm_eq (s : String) :
    normalize_country_name (normalize_country_name s) = normalize_country_name s := by
  unfold normalize_country_name
  cases h : country_map.find? (fun p => p.1 == pyLower s) with
  | none => simp [h]
  | some pr =>
      have hmem : pr ∈ country_map := List.mem_of_find?_eq_some h
      simp only [h, Option.map_some', Option.getD_some]
      fin_cases hmem <;> decide

/-- C10: the Country Normalizer is idempotent: every canonical name the alias
table produces maps to itself, and every unmapped string passes through
unchanged, so normalizing twice is the same as normalizing once and the
Synthesizer's double-normalized comparison is well-behaved. -/
theorem normalize_country_name_idempotent (s : String) :
    normalize_country_name (normalize_country_name s) = normalize_country_name s :=
  normalize_norm_eq s

/-- Helper: a string with no characters is the empty string. -/
theorem string_data_nil {s : String} (h : s.data = []) : s = "" := by
  cases s with
  | mk data =>
      simp only [String.data] at h
      rw [h]

/-- Helper: normalizing a non-empty string yields a non-empty string (the
alias table's canonical values are all non-empty, and unmapped strings pass
through unchanged). -/
theorem normalize_data_ne_nil {C : String} (h : C.data ≠ []) :
    (normalize_country_name C).data ≠ [] := by
  unfold normalize_country_name
  cases hf : country_map.find? (fun p => p.1 == pyLower C) with
  | none => simpa using h
  | some pr =>
      have hmem : pr ∈ country_map := List.mem_of_find?_eq_some hf
      simp only [Option.map_some', Option.getD_some]
      fin_cases hmem <;> decide

/-! Section: Record Synthesizer (`ActAgent._simulate_scrape_from_url`, `ActAgent.fetch_data`) -/

/-- Model of `random.choice(l)` over a list of optional values: the random
draw `n` selects an index. -/
def pyChoiceO {α : Type} (l : List (Option α)) (n : Nat) : Option α :=
  l.getD (n % l.length) none

/-- Model of `random.choice(l)` over a list of strings. -/
def pyChoiceD (l : List String) (n : Nat) : String :=
  l.getD (n % l.length) ""

/-- Model of `random.randint(a, b)` driven by the draw `n`. -/
def pyRandint (a b n : Nat) : Nat := a + n % (b - a + 1)

/-- Model of Python `round(x, 2)`. -/
def pyRound2 (x : ℚ) : ℚ := (round (x * 100) : ℤ) / 100

/-- The text after the first `//` of a URL, if any (start of the netloc). -/
def afterDoubleSlash : List Char → Option (List Char)
  | '/' :: '/' :: rest => some rest
  | _ :: rest => afterDoubleSlash rest
  | [] => none

/-- Model of `urlparse(url).netloc`: the host portion between `//` and the
next `/`, or `""` when the URL has no `//`. -/
def urlNetloc (url : String) : String :=
  match afterDoubleSlash url.data with
  | some rest => String.mk (rest.takeWhile (fun c => c != '/'))
  | none => ""

/-- One record's worth of `random` draws (`services.py` lines 186-223): one
field per `random.choice` / `random.random` / `random.randint` call site. -/
structure FieldDraws where
  unit_c : Nat
  hscode_b : Bool
  pdesc_b : Bool
  hsdesc_c : Nat
  shipper_c : Nat
  shipper_n : Nat
  consignee_c : Nat
  consignee_n : Nat
  stdq_c : Nat
  stdu_c : Nat
  pkg_c : Nat
  qty_c : Nat
  bol_c : Nat
  bol_n : Nat
  caddr_c : Nat
  saddr_c : Nat
  teu_c : Nat
  porto_c : Nat
  porto_l : Nat
  portd_c : Nat
  portd_l : Nat
  portv_c : Nat
  portv_l : Nat
  gw_c : Nat
  meas_c : Nat
  meas_n : Nat
  freight_c : Nat
  fwd_c : Nat
  fwd_l : Nat
  decl_c : Nat
  decl_n : Nat
  notify_c : Nat
  decl2_c : Nat
  decl2_n : Nat
  marks_c : Nat
  marks_n : Nat
  cnum_c : Nat
  cnum_n : Nat
  cmail_c : Nat
  cmail_n : Nat
  deriving Inhabited

/-- The fixed reference list of partner economies (`possible_partner_countries`). -/
def possible_partner_countries : List String :=
  ["USA", "Germany", "China", "Japan", "Brazil", "Canada", "Mexico", "France", "UK"]

/-- Model of `volume = 100000 + (abs(hash(partner_country_name + query)) % 100000)`:
the deterministic hash-derived base volume, before intent scaling. -/
def baseVolume (pyHash : String → Int) (p query : String) : ℚ :=
  100000 + (((pyHash (p ++ query)).natAbs % 100000 : ℕ) : ℚ)

/-- The intent-dependent scaling applied to the base volume
(`volume *= 1.2` for import, `volume *= 0.8` for export). -/
def intentScale (intent : Option String) : ℚ :=
  if intent == some "import" then 6 / 5
  else if intent == some "export" then 4 / 5
  else 1

/-- One synthesized `TradeDataRecord` (`record_data`, `services.py` 186-223)
for partner `p`, driven by the draws `d`. -/
def mkSimRecord (pyHash : String → Int) (d : FieldDraws) (url query : String)
    (pq : ParsedQuery) (target : Option String) (p : String) : TradeDataRecord :=
  let hscode_val := pq.hsn_code
  let product_desc_val := pq.product_name
  let intent := pq.intent
  let volume : ℚ := baseVolume pyHash p query * intentScale intent
  { country := some p
    volume_usd := some volume
    volume_unit := some (volume / 100)
    unit := pyChoiceO [some "kg", some "units", some "tons", none] d.unit_c
    year := some 2023
    source := some (if (urlNetloc url).data.isEmpty then "Simulated Data Source" else urlNetloc url)
    hscode := if d.hscode_b then hscode_val else none
    product_description :=
      if d.pdesc_b then product_desc_val
      else some ("Generic " ++ pyOrElse hscode_val "Product")
    hs_product_description :=
      pyChoiceO [some ("Description for HSN " ++ pyOrElse hscode_val "unknown"), none] d.hsdesc_c
    shipper_name :=
      pyChoiceO [some ("Shipper_" ++ toString (pyRandint 100 999 d.shipper_n) ++ " Inc."), none] d.shipper_c
    consignee_name :=
      pyChoiceO [some ("Consignee_" ++ toString (pyRandint 100 999 d.consignee_n) ++ " Co."), none] d.consignee_c
    std_quantity := pyChoiceO [some (pyRound2 (volume / 5000)), none] d.stdq_c
    std_unit := pyChoiceO [some "Pieces", some "Pallets", none] d.stdu_c
    country_of_destination := if intent == some "export" then some p else target
    package_type := pyChoiceO [some "Cartons", some "Pallets", some "Boxes", none] d.pkg_c
    country_of_origin := if intent == some "export" then target else some p
    quantity := pyChoiceO [some (pyRound2 (volume / 1000)), none] d.qty_c
    bill_of_lading_no :=
      pyChoiceO [some ("BL-" ++ toString (pyRandint 10000 99999 d.bol_n)), none] d.bol_c
    consignee_address := pyChoiceO [some ("123 Main St, " ++ p), none] d.caddr_c
    supplier_address :=
      pyChoiceO [some ("456 Trade Rd, " ++ pyOrElse target "Global"), none] d.saddr_c
    container_teu := pyChoiceO [some 1, some 2, some (1 / 2), none] d.teu_c
    port_of_origin :=
      pyChoiceO [some ("Port " ++ pyChoiceD ["A", "B", "C"] d.porto_l), none] d.porto_c
    port_of_destination :=
      pyChoiceO [some ("Port " ++ pyChoiceD ["X", "Y", "Z"] d.portd_l), none] d.portd_c
    port_of_delivery :=
      pyChoiceO [some ("Port " ++ pyChoiceD ["P", "Q", "R"] d.portv_l), none] d.portv_c
    gross_weight := pyChoiceO [some (pyRound2 (volume / 100)), none] d.gw_c
    measurement :=
      pyChoiceO [some (toString (pyRandint 10 50 d.meas_n) ++ " CBM"), none] d.meas_c
    freight_term := pyChoiceO [some "FOB", some "CIF", some "EXW", none] d.freight_c
    forwarder_name :=
      pyChoiceO [some ("Forwarder " ++ pyChoiceD ["Logistics", "Global"] d.fwd_l), none] d.fwd_c
    declarant_name :=
      pyChoiceO [some ("Declarant " ++ toString (pyRandint 1 5 d.decl_n)), none] d.decl_c
    notify_party_address := pyChoiceO [some ("789 Recv Blvd, " ++ p), none] d.notify_c
    declarant_name_2 :=
      pyChoiceO [some ("Declarant " ++ toString (pyRandint 6 10 d.decl2_n)), none] d.decl2_c
    marks_number :=
      pyChoiceO [some ("MN-" ++ toString (pyRandint 1000 9999 d.marks_n)), none] d.marks_c
    contact_number_booking :=
      pyChoiceO [some ("+1" ++ toString (pyRandint 1000000000 9999999999 d.cnum_n)), none] d.cnum_c
    contact_email_booking :=
      pyChoiceO [some ("booking" ++ toString (pyRandint 1 10 d.cmail_n) ++ "@example.com"), none] d.cmail_c }

/-- Map with an explicit running index, modelling the loop counter that
selects each iteration's draws. -/
def mapIdxFrom {α β : Type} (f : Nat → α → β) : Nat → List α → List β
  | _, [] => []
  | i, a :: as => f i a :: mapIdxFrom f (i + 1) as

/-- Model of `target_reporting_country_normalized` (`services.py` 170):
`normalize_country_name(parsed_query.country) if parsed_query.country else
None` — the Python truthiness guard makes both an absent and an empty-string
query country yield `None`. -/
def targetReporting (pq : ParsedQuery) : Option String :=
  match pq.country with
  | none => none
  | some c => if c.data.isEmpty then none else some (normalize_country_name c)

/-- The partner countries kept by the loop: the reporting country named in
the query is skipped (Python truthiness of the target, then a normalized
comparison, `services.py` 174). -/
def keptPartners (pq : ParsedQuery) : List String :=
  possible_partner_countries.filter (fun p =>
    !(pyTruthy (targetReporting pq) &&
      (normalize_country_name p == (targetReporting pq).getD "")))

/-- Model of `ActAgent._simulate_scrape_from_url`: one batch of synthesized records
for one search-result URL. -/
def _simulate_scrape_from_url (pyHash : String → Int) (draws : Nat → FieldDraws)
    (url query : String) (pq : ParsedQuery) : List TradeDataRecord :=
  mapIdxFrom
    (fun i p => mkSimRecord pyHash (draws i) url query pq (targetReporting pq) p)
    0 (keptPartners pq)

/-- One Google search result: `result.get('title')` / `result.get('link')`. -/
structure SearchResult where
  title : Option String
  link : Option String

/-- Whether `pat` occurs at the head of `text`. -/
def leadMatch : List Char → List Char → Bool
  | [], _ => true
  | _ :: _, [] => false
  | p :: ps, c :: cs => p == c && leadMatch ps cs

/-- Whether `pat` occurs anywhere in `text` (model of Python `pat in text`). -/
def hasSubChars : List Char → List Char → Bool
  | [], pat => pat.isEmpty
  | c :: cs, pat => leadMatch pat (c :: cs) || hasSubChars cs pat

/-- Python `pat in s` on strings. -/
def strHasSub (s pat : String) : Bool := hasSubChars s.data pat.data

/-- The inner loop of `ActAgent.fetch_data` over one query's search results,
threading the scraped-link cache and the accumulated records. -/
def fetchFromResults (pyHash : String → Int) (draws : String → String → Nat → FieldDraws)
    (query : String) (pq : ParsedQuery) :
    List SearchResult → List String → List TradeDataRecord →
    List String × List TradeDataRecord
  | [], cache, acc => (cache, acc)
  | r :: rs, cache, acc =>
      match r.link with
      | none => fetchFromResults pyHash draws query pq rs cache acc
      | some link =>
          if !link.data.isEmpty && !strHasSub (pyLower link) "pdf" &&
              !strHasSub (pyLower link) "excel" then
            if link ∈ cache then fetchFromResults pyHash draws query pq rs cache acc
            else
              let batch := _simulate_scrape_from_url pyHash (draws link query) link query pq
              if batch.isEmpty then fetchFromResults pyHash draws query pq rs cache acc
              else fetchFromResults pyHash draws query pq rs (link :: cache) (acc ++ batch)
          else fetchFromResults pyHash draws query pq rs cache acc

/-- The outer loop of `ActAgent.fetch_data` over the planned search queries. -/
def fetchAll (pyHash : String → Int) (draws : String → String → Nat → FieldDraws)
    (search : String → List SearchResult) (pq : ParsedQuery) :
    List String → List String → List TradeDataRecord →
    List String × List TradeDataRecord
  | [], cache, acc => (cache, acc)
  | q :: qs, cache, acc =>
      let st := fetchFromResults pyHash draws q pq (search q) cache acc
      fetchAll pyHash draws search pq qs st.1 st.2

/-- Model of `ActAgent.fetch_data`: all records synthesized for the planned queries. -/
def fetch_data (pyHash : String → Int) (draws : String → String → Nat → FieldDraws)
    (search : String → List SearchResult) (search_queries : List String)
    (pq : ParsedQuery) : List TradeDataRecord :=
  (fetchAll pyHash draws search pq search_queries [] []).2

/-! Section: Synthesizer lemmas and claims C1, C2, C6 -/

theorem mem_mapIdxFrom {α β : Type} {f : Nat → α → β} {b : β} :
    ∀ {i : Nat} {l : List α}, b ∈ mapIdxFrom f i l → ∃ j a, a ∈ l ∧ b = f j a := by
  intro i l
  induction l generalizing i with
  | nil => intro h; simp [mapIdxFrom] at h
  | cons x xs ih =>
      intro h
      simp only [mapIdxFrom, List.mem_cons] at h
      rcases h with h | h
      · exact ⟨i, x, List.mem_cons_self x xs, h⟩
      · obtain ⟨j, a, ha, hb⟩ := ih h
        exact ⟨j, a, List.mem_cons_of_mem x ha, hb⟩

theorem map_mapIdxFrom_eq {α β γ : Type} (f f' : Nat → α → β) (g g' : β → γ)
    (h : ∀ j a, g (f j a) = g' (f' j a)) :
    ∀ (i : Nat) (l : List α), (mapIdxFrom f i l).map g = (mapIdxFrom f' i l).map g' := by
  intro i l
  induction l generalizing i with
  | nil => rfl
  | cons x xs ih => simp only [mapIdxFrom, List.map_cons, h, ih]

theorem mem_simulate {pyHash : String → Int} {draws : Nat → FieldDraws}
    {url query : String} {pq : ParsedQuery} {r : TradeDataRecord}
    (h : r ∈ _simulate_scrape_from_url pyHash draws url query pq) :
    ∃ j p, p ∈ keptPartners pq ∧
      r = mkSimRecord pyHash (draws j) url query pq (targetReporting pq) p := by
  obtain ⟨j, p, hp, hr⟩ := mem_mapIdxFrom h
  exact ⟨j, p, hp, hr⟩

/-- With a query country set to a non-empty string, the reporting target is
its normalized form. -/
theorem targetReporting_eq {pq : ParsedQuery} {C : String} (hC : pq.country = some C)
    (hCne : C ≠ "") : targetReporting pq = some (normalize_country_name C) := by
  have hdne : C.data ≠ [] := fun h => hCne (string_data_nil h)
  rw [targetReporting, hC]
  simp only [List.isEmpty_eq_false.mpr hdne, Bool.false_eq_true, if_false]

theorem mkSimRecord_country (pyHash : String → Int) (d : FieldDraws)
    (url query : String) (pq : ParsedQuery) (target : Option String) (p : String) :
    (mkSimRecord pyHash d url query pq target p).country = some p := rfl

theorem mkSimRecord_volume (pyHash : String → Int) (d : FieldDraws)
    (url query : String) (pq : ParsedQuery) (target : Option String) (p : String) :
    (mkSimRecord pyHash d url query pq target p).volume_usd =
      some (baseVolume pyHash p query * intentScale pq.intent) := rfl

theorem mkSimRecord_origin (pyHash : String → Int) (d : FieldDraws)
    (url query : String) (pq : ParsedQuery) (target : Option String) (p : String) :
    (mkSimRecord pyHash d url query pq target p).country_of_origin =
      if pq.intent == some "export" then target else some p := rfl

theorem mkSimRecord_dest (pyHash : String → Int) (d : FieldDraws)
    (url query : String) (pq : ParsedQuery) (target : Option String) (p : String) :
    (mkSimRecord pyHash d url query pq target p).country_of_destination =
      if pq.intent == some "export" then some p else target := rfl

/-- Every partner country in the fixed reference list is a nonempty string. -/
theorem partner_names_nonempty : ∀ q ∈ possible_partner_countries, q.data ≠ [] := by
  decide

/-- A kept partner is never the normalized reporting country. -/
theorem keptPartners_ne_normalized {pq : ParsedQuery} {C p : String}
    (hC : pq.country = some C) (hp : p ∈ keptPartners pq) :
    p ≠ normalize_country_name C := by
  unfold keptPartners at hp
  rw [List.mem_filter] at hp
  obtain ⟨hmem, hcond⟩ := hp
  by_cases hCe : C = ""
  · subst hCe
    intro hpe
    have hnil : p.data = [] := by
      rw [hpe]
      decide
    exact partner_names_nonempty p hmem hnil
  · rw [targetReporting_eq hC hCe] at hcond
    have hdne : C.data ≠ [] := fun h => hCe (string_data_nil h)
    have htr : pyTruthy (some (normalize_country_name C)) = true := by
      show (!(normalize_country_name C).data.isEmpty) = true
      rw [List.isEmpty_eq_false.mpr (normalize_data_ne_nil hdne)]
      rfl
    rw [htr] at hcond
    simp only [Option.getD_some, Bool.true_and, Bool.not_eq_true'] at hcond
    intro hpe
    rw [hpe, normalize_norm_eq] at hcond
    simp at hcond

/-- No record of the list carries `c` as its partner country. -/
def noPartnerIs (l : List TradeDataRecord) (c : String) : Prop :=
  ∀ r ∈ l, r.country ≠ some c

theorem simulate_noPartnerIs {pyHash : String → Int} {pq : ParsedQuery} {C : String}
    (hC : pq.country = some C) (draws : Nat → FieldDraws) (url query : String) :
    noPartnerIs (_simulate_scrape_from_url pyHash draws url query pq)
      (normalize_country_name C) := by
  intro r hr heq
  obtain ⟨j, p, hp, hrec⟩ := mem_simulate hr
  rw [hrec, mkSimRecord_country] at heq
  exact keptPartners_ne_normalized hC hp (Option.some_inj.mp heq)

theorem fetchFromResults_records {pyHash : String → Int}
    {draws : String → String → Nat → FieldDraws} {query : String} {pq : ParsedQuery} :
    ∀ (rs : List SearchResult) (cache : List String) (acc : List TradeDataRecord)
      (r : TradeDataRecord),
      r ∈ (fetchFromResults pyHash draws query pq rs cache acc).2 →
      r ∈ acc ∨ ∃ dr u, r ∈ _simulate_scrape_from_url pyHash dr u query pq := by
  intro rs
  induction rs with
  | nil => intro cache acc r h; exact Or.inl h
  | cons x xs ih =>
      intro cache acc r h
      rcases x with ⟨t, link⟩
      cases link with
      | none => exact ih _ _ r h
      | some l =>
          simp only [fetchFromResults] at h
          split at h
          · split at h
            · exact ih _ _ r h
            · split at h
              · exact ih _ _ r h
              · rcases ih _ _ r h with hin | hsim
                · rcases List.mem_append.mp hin with h1 | h2
                  · exact Or.inl h1
                  · exact Or.inr ⟨draws l query, l, h2⟩
                · exact hsim.elim (fun dr hdr => Or.inr ⟨dr, hdr⟩)
          · exact ih _ _ r h

theorem fetchAll_records {pyHash : String → Int}
    {draws : String → String → Nat → FieldDraws} {search : String → List SearchResult}
    {pq : ParsedQuery} :
    ∀ (qs : List String) (cache : List String) (acc : List TradeDataRecord)
      (r : TradeDataRecord),
      r ∈ (fetchAll pyHash draws search pq qs cache acc).2 →
      r ∈ acc ∨ ∃ dr u q, r ∈ _simulate_scrape_from_url pyHash dr u q pq := by
  intro qs
  induction qs with
  | nil => intro cache acc r h; exact Or.inl h
  | cons q qs ih =>
      intro cache acc r h
      simp only [fetchAll] at h
      rcases ih _ _ r h with hst | hsim
      · rcases fetchFromResults_records (search q) cache acc r hst with hin | ⟨dr, u, hs⟩
        · exact Or.inl hin
        · exact Or.inr ⟨dr, u, q, hs⟩
      · exact Or.inr hsim

/-- C1: if the query names a reporting country `C`, then no record produced by
the Record Synthesizer (`_simulate_scrape_from_url`, and hence `fetch_data`)
carries the normalized form of `C` in its partner-country field. -/
theorem query_country_never_partner
    (pyHash : String → Int) (draws : Nat → FieldDraws)
    (draws2 : String → String → Nat → FieldDraws)
    (search : String → List SearchResult)
    (url query : String) (queries : List String) (pq : ParsedQuery) (C : String)
    (hC : pq.country = some C) :
    noPartnerIs (_simulate_scrape_from_url pyHash draws url query pq)
      (normalize_country_name C) ∧
    noPartnerIs (fetch_data pyHash draws2 search queries pq)
      (normalize_country_name C) := by
  refine ⟨simulate_noPartnerIs hC draws url query, ?_⟩
  intro r hr heq
  rcases fetchAll_records queries [] [] r hr with hin | ⟨dr, u, q, hs⟩
  · simp at hin
  · exact simulate_noPartnerIs hC dr u q r hs heq

def pqExportUSA : ParsedQuery := ⟨none, none, some "USA", some "export", []⟩

def pqImportGermany : ParsedQuery := ⟨some "8419", none, some "Germany", some "import", []⟩

def zeroHash : String → Int := fun _ => 0

def defaultDraws : Nat → FieldDraws := fun _ => default

def defaultDraws2 : String → String → Nat → FieldDraws := fun _ _ _ => default

def noResults : String → List SearchResult := fun _ => []

theorem query_country_never_partner_witness :
    pqExportUSA.country = some "USA" ∧
    noPartnerIs (_simulate_scrape_from_url zeroHash defaultDraws "http://example.com/a" "q" pqExportUSA)
      (normalize_country_name "USA") ∧
    noPartnerIs (fetch_data zeroHash defaultDraws2 noResults ["q"] pqExportUSA)
      (normalize_country_name "USA") := by
  have h := query_country_never_partner zeroHash defaultDraws defaultDraws2 noResults
    "http://example.com/a" "q" ["q"] pqExportUSA "USA" rfl
  exact ⟨rfl, h.1, h.2⟩

/-- The intent-dependent origin/destination rule of the spec: for export the
origin is the normalized reporting country and the destination the partner;
for import the assignment is reversed. -/
def originDestRule (l : List TradeDataRecord) (pq : ParsedQuery) (nc : String) : Prop :=
  ∀ r ∈ l,
    (pq.intent = some "export" →
      r.country_of_origin = some nc ∧ r.country_of_destination = r.country) ∧
    (pq.intent = some "import" →
      r.country_of_origin = r.country ∧ r.country_of_destination = some nc)

/-- C2 (amended): every record synthesized for a query whose country is set
to a non-empty string assigns `country_of_origin` and
`country_of_destination` according to the intent rule. (For a query country
that is the empty string the Python truthiness guard at `services.py` 170
makes the reporting target `None`, so the rule fails there — see the
counterexample.) -/
theorem origin_destination_follow_intent
    (pyHash : String → Int) (draws : Nat → FieldDraws) (url query : String)
    (pq : ParsedQuery) (C : String) (hC : pq.country = some C) (hCne : C ≠ "") :
    originDestRule (_simulate_scrape_from_url pyHash draws url query pq) pq
      (normalize_country_name C) := by
  intro r hr
  obtain ⟨j, p, hp, hrec⟩ := mem_simulate hr
  subst hrec
  rw [mkSimRecord_origin, mkSimRecord_dest, mkSimRecord_country,
    targetReporting_eq hC hCne]
  constructor
  · intro hexp
    rw [hexp]
    simp
  · intro himp
    rw [himp]
    simp

theorem origin_destination_follow_intent_witness :
    pqExportUSA.country = some "USA" ∧ "USA" ≠ "" ∧
    originDestRule (_simulate_scrape_from_url zeroHash defaultDraws "http://example.com/a" "q" pqExportUSA)
      pqExportUSA (normalize_country_name "USA") ∧
    pqImportGermany.country = some "Germany" ∧ "Germany" ≠ "" ∧
    originDestRule (_simulate_scrape_from_url zeroHash defaultDraws "http://example.com/a" "q" pqImportGermany)
      pqImportGermany (normalize_country_name "Germany") :=
  ⟨rfl, by decide,
   origin_destination_follow_intent zeroHash defaultDraws "http://example.com/a" "q"
     pqExportUSA "USA" rfl (by decide),
   rfl, by decide,
   origin_destination_follow_intent zeroHash defaultDraws "http://example.com/a" "q"
     pqImportGermany "Germany" rfl (by decide)⟩

def pqExportEmptyCountry : ParsedQuery := ⟨none, none, some "", some "export", []⟩

/-- C2 counterexample: with the query country set to the empty string and
intent export, the claim as stated predicts `country_of_origin` equal to the
normalized query country (`some ""`), but the Python truthiness guard makes
the reporting target `None`, so the first synthesized record's
`country_of_origin` is absent. -/
theorem origin_destination_counterexample :
    pqExportEmptyCountry.country = some "" ∧
    pqExportEmptyCountry.intent = some "export" ∧
    ((_simulate_scrape_from_url zeroHash defaultDraws "http://example.com/a" "q"
        pqExportEmptyCountry).head?).map (fun r => r.country_of_origin) =
      some none ∧
    (none : Option String) ≠ some (normalize_country_name "") :=
  ⟨rfl, rfl, rfl, by decide⟩

/-- C6: the base volume is a deterministic function of the partner name and
the query string alone: it does not depend on the per-field random draws or
on the URL, it always lies in `[100000, 200000)` before scaling, and the
stored `volume_usd` is exactly that value scaled by the intent factor. -/
theorem base_volume_deterministic
    (pyHash : String → Int) (d1 d2 : Nat → FieldDraws) (u1 u2 query : String)
    (pq : ParsedQuery) :
    ((_simulate_scrape_from_url pyHash d1 u1 query pq).map (fun r => r.volume_usd) =
      (_simulate_scrape_from_url pyHash d2 u2 query pq).map (fun r => r.volume_usd)) ∧
    ∀ r ∈ _simulate_scrape_from_url pyHash d1 u1 query pq, ∃ p,
      r.country = some p ∧
      r.volume_usd = some (baseVolume pyHash p query * intentScale pq.intent) ∧
      100000 ≤ baseVolume pyHash p query ∧ baseVolume pyHash p query < 200000 := by
  constructor
  · unfold _simulate_scrape_from_url
    exact map_mapIdxFrom_eq
      (fun i p => mkSimRecord pyHash (d1 i) u1 query pq (targetReporting pq) p)
      (fun i p => mkSimRecord pyHash (d2 i) u2 query pq (targetReporting pq) p)
      (fun r => r.volume_usd) (fun r => r.volume_usd)
      (fun j a => rfl) 0 (keptPartners pq)
  · intro r hr
    obtain ⟨j, p, hp, hrec⟩ := mem_simulate hr
    refine ⟨p, by rw [hrec, mkSimRecord_country], by rw [hrec, mkSimRecord_volume], ?_, ?_⟩
    · unfold baseVolume
      have : (0 : ℚ) ≤ (((pyHash (p ++ query)).natAbs % 100000 : ℕ) : ℚ) :=
        Nat.cast_nonneg _
      linarith
    · unfold baseVolume
      have h1 : ((pyHash (p ++ query)).natAbs % 100000) < 100000 :=
        Nat.mod_lt _ (by norm_num)
      have h2 : (((pyHash (p ++ query)).natAbs % 100000 : ℕ) : ℚ) < 100000 := by
        exact_mod_cast h1
      linarith

/-! Section: Model-dump tables (`pydantic model_dump(exclude_none=True)`) -/

/-- One field of `TradeDataRecord`: internal name, external alias label
(the alias from `models.py` when one is declared, otherwise the name), and
the getter producing the field's value when present. -/
structure FieldSpec where
  name : String
  label : String
  getter : TradeDataRecord → Option Value

/-- All 34 fields of `models.TradeDataRecord`, in declaration order. -/
def fieldSpecs : List FieldSpec :=
  [⟨"country", "country", fun r => r.country.map Value.str⟩,
   ⟨"volume_usd", "volume_usd", fun r => r.volume_usd.map Value.num⟩,
   ⟨"volume_unit", "volume_unit", fun r => r.volume_unit.map Value.num⟩,
   ⟨"unit", "unit", fun r => r.unit.map Value.str⟩,
   ⟨"year", "year", fun r => r.year.map Value.int⟩,
   ⟨"source", "source", fun r => r.source.map Value.str⟩,
   ⟨"hscode", "HS Code", fun r => r.hscode.map Value.str⟩,
   ⟨"product_description", "Product Description", fun r => r.product_description.map Value.str⟩,
   ⟨"hs_product_description", "HS Product Description", fun r => r.hs_product_description.map Value.str⟩,
   ⟨"shipper_name", "Shipper Name", fun r => r.shipper_name.map Value.str⟩,
   ⟨"consignee_name", "Consignee Name", fun r => r.consignee_name.map Value.str⟩,
   ⟨"std_quantity", "Standard Quantity", fun r => r.std_quantity.map Value.num⟩,
   ⟨"std_unit", "Standard Unit", fun r => r.std_unit.map Value.str⟩,
   ⟨"country_of_destination", "Country of Destination", fun r => r.country_of_destination.map Value.str⟩,
   ⟨"package_type", "Package Type", fun r => r.package_type.map Value.str⟩,
   ⟨"country_of_origin", "Country of Origin", fun r => r.country_of_origin.map Value.str⟩,
   ⟨"quantity", "Quantity", fun r => r.quantity.map Value.num⟩,
   ⟨"bill_of_lading_no", "Bill of Lading No", fun r => r.bill_of_lading_no.map Value.str⟩,
   ⟨"consignee_address", "Consignee Address", fun r => r.consignee_address.map Value.str⟩,
   ⟨"supplier_address", "Supplier Address", fun r => r.supplier_address.map Value.str⟩,
   ⟨"container_teu", "Container TEU", fun r => r.container_teu.map Value.num⟩,
   ⟨"port_of_origin", "Port of Origin", fun r => r.port_of_origin.map Value.str⟩,
   ⟨"port_of_destination", "Port of Destination", fun r => r.port_of_destination.map Value.str⟩,
   ⟨"port_of_delivery", "Port of Delivery", fun r => r.port_of_delivery.map Value.str⟩,
   ⟨"gross_weight", "Gross Weight", fun r => r.gross_weight.map Value.num⟩,
   ⟨"measurement", "Measurement", fun r => r.measurement.map Value.str⟩,
   ⟨"freight_term", "Freight Term", fun r => r.freight_term.map Value.str⟩,
   ⟨"forwarder_name", "Forwarder Name", fun r => r.forwarder_name.map Value.str⟩,
   ⟨"declarant_name", "Declarant Name", fun r => r.declarant_name.map Value.str⟩,
   ⟨"notify_party_address", "Notify Party Address", fun r => r.notify_party_address.map Value.str⟩,
   ⟨"declarant_name_2", "Declarant Name 2", fun r => r.declarant_name_2.map Value.str⟩,
   ⟨"marks_number", "Marks Number", fun r => r.marks_number.map Value.str⟩,
   ⟨"contact_number_booking", "Contact Number Booking", fun r => r.contact_number_booking.map Value.str⟩,
   ⟨"contact_email_booking", "Contact Email Booking", fun r => r.contact_email_booking.map Value.str⟩]

/-- Model of `td.model_dump(exclude_none=True)`: the present fields keyed by internal
name (used by `generate_recommendations`). -/
def dumpFields (r : TradeDataRecord) : List (String × Value) :=
  fieldSpecs.filterMap (fun s => (s.getter r).map (fun v => (s.name, v)))

/-- Model of `td.model_dump(by_alias=True, exclude_none=True)`: the present fields
keyed by alias label (used by `export_to_excel`). -/
def dumpByAlias (r : TradeDataRecord) : List (String × Value) :=
  fieldSpecs.filterMap (fun s => (s.getter r).map (fun v => (s.label, v)))

/-! Section: Recommendation Aggregator (`ActAgent.generate_recommendations`) -/

/-- First-occurrence deduplication, accumulator-based. -/
def uniqKeysAux : List String → List String → List String
  | acc, [] => acc.reverse
  | acc, k :: ks =>
      if k ∈ acc then uniqKeysAux acc ks else uniqKeysAux (k :: acc) ks

/-- The distinct values of a list, keeping first occurrences in order. -/
def uniqKeys (l : List String) : List String := uniqKeysAux [] l

/-- Lexicographic comparison of character lists by code point, modelling how
Python (and hence pandas) orders the strings appearing in this pipeline. -/
def charListLe : List Char → List Char → Bool
  | [], _ => true
  | _ :: _, [] => false
  | a :: as, b :: bs =>
      if a.toNat < b.toNat then true
      else if a.toNat = b.toNat then charListLe as bs
      else false

/-- Lexicographic string comparison (Boolean). -/
def strLeB (a b : String) : Bool := charListLe a.data b.data

/-- Lexicographic string comparison (propositional). -/
def strle (a b : String) : Prop := strLeB a b = true

instance : DecidableRel strle :=
  fun a b => inferInstanceAs (Decidable (strLeB a b = true))

/-- Descending comparison of `(country, summed volume)` pairs by volume, the
order produced by `Series.nlargest`. -/
def valDesc (a b : String × ℚ) : Prop := b.2 ≤ a.2

instance : DecidableRel valDesc :=
  fun a b => inferInstanceAs (Decidable (b.2 ≤ a.2))

instance : IsTotal (String × ℚ) valDesc := ⟨fun a b => le_total b.2 a.2⟩

instance : IsTrans (String × ℚ) valDesc := ⟨fun _ _ _ h1 h2 => le_trans h2 h1⟩

/-- Model of `pd.to_numeric(..., errors='coerce').fillna(0)` applied per record:
a missing volume contributes 0. -/
def volumeOr0 (r : TradeDataRecord) : ℚ := r.volume_usd.getD 0

/-- The group keys of `df.groupby('country')`: the distinct present country
values, sorted ascending (pandas sorts group keys). -/
def groupKeys (records : List TradeDataRecord) : List String :=
  List.insertionSort strle (uniqKeys (records.filterMap (fun r => r.country)))

/-- The summed `volume_usd` of one country group. -/
def countrySum (records : List TradeDataRecord) (c : String) : ℚ :=
  ((records.filter (fun r => r.country == some c)).map volumeOr0).sum

/-- Model of `df.groupby('country')['volume_usd'].sum()` as an association list. -/
def groupSums (records : List TradeDataRecord) : List (String × ℚ) :=
  (groupKeys records).map (fun c => (c, countrySum records c))

/-- Model of `.nlargest(3)`: the three largest sums, descending, stable for ties. -/
def topCountries (records : List TradeDataRecord) : List (String × ℚ) :=
  (List.insertionSort valDesc (groupSums records)).take 3

/-- Model of `Series.mode().iloc[0]`: pandas returns all maximally frequent values
sorted ascending and the code takes the first, i.e. the lexicographically
least value among those with maximal count. -/
def modeVal (l : List String) : Option String :=
  (List.insertionSort strle
    ((uniqKeys l).filter
      (fun v => decide (∀ w ∈ uniqKeys l, l.count w ≤ l.count v)))).head?

/-- Digit grouping for `f"{volume:,.2f}"`: commas every three digits,
processing the reversed digit string. -/
def commaRev : List Char → Nat → List Char
  | [], _ => []
  | c :: cs, k =>
      if k == 3 then ',' :: c :: commaRev cs 1 else c :: commaRev cs (k + 1)

/-- Model of Python `f"{v:,.2f}"`: thousands separators and two decimals. -/
def fmtCurrency (v : ℚ) : String :=
  let cents : ℤ := round (v * 100)
  let n : Nat := cents.natAbs
  let fracPart := n % 100
  let fracStr := (if fracPart < 10 then "0" else "") ++ toString fracPart
  (if cents < 0 then "-" else "") ++
    String.mk ((commaRev (toString (n / 100)).data.reverse 0).reverse) ++ "." ++ fracStr

/-- The exceptions `generate_recommendations` can actually raise on the
modelled path: `KeyError` from `df.groupby('country')` when no record has a
country, and `TypeError` from `parsed_query.intent + ...` when the intent is
absent. -/
inductive PyError where
  | keyError
  | typeError
  deriving DecidableEq

/-- Model of `'volume_usd' in df.columns`: at least one record has the field. -/
def volumePresent (records : List TradeDataRecord) : Bool :=
  records.any (fun r => r.volume_usd.isSome)

/-- Model of `'country' in df.columns`. -/
def countryPresent (records : List TradeDataRecord) : Bool :=
  records.any (fun r => r.country.isSome)

/-- Model of `not df.empty` for the exclude-none dump of a non-empty record list. -/
def dfNonEmpty (records : List TradeDataRecord) : Bool :=
  records.any (fun r => !(dumpFields r).isEmpty)

/-- The top-markets description: each country with its summed volume. -/
def topDescription (records : List TradeDataRecord) : String :=
  String.intercalate ", "
    ((topCountries records).map (fun cv => cv.1 ++ ": $" ++ fmtCurrency cv.2))

/-- The top-markets recommendation for intent word `s`
(`intent_phrase = parsed_query.intent + ("ing" if parsed_query.intent else "")`). -/
def topMarketsRec (records : List TradeDataRecord) (s : String) : Recommendation :=
  ⟨"Top 3 " ++ (s ++ (if s.data.isEmpty then "" else "ing")) ++ " Markets by Volume",
   topDescription records⟩

/-- The top-markets step (`services.py` 240-251). The `groupby` raises
`KeyError` when the country column is absent; building the title raises
`TypeError` when `parsed_query.intent` is `None`. -/
def step1 (records : List TradeDataRecord) (pq : ParsedQuery) :
    Except PyError (List Recommendation) :=
  if dfNonEmpty records && volumePresent records then
    if countryPresent records then
      if (topCountries records).isEmpty then Except.ok []
      else
        match pq.intent with
        | none => Except.error PyError.typeError
        | some s => Except.ok [topMarketsRec records s]
    else Except.error PyError.keyError
  else Except.ok []

/-- The freight-term mode step (`services.py` 254-260). -/
def freightRecs (records : List TradeDataRecord) : List Recommendation :=
  if (records.filterMap (fun r => r.freight_term)).isEmpty then []
  else
    match modeVal (records.filterMap (fun r => r.freight_term)) with
    | some m =>
        [⟨"Common Freight Terms", "Most frequently observed freight term: " ++ m ++ "."⟩]
    | none => []

/-- The package-type mode step (`services.py` 262-268). -/
def packageRecs (records : List TradeDataRecord) : List Recommendation :=
  if (records.filterMap (fun r => r.package_type)).isEmpty then []
  else
    match modeVal (records.filterMap (fun r => r.package_type)) with
    | some m => [⟨"Typical Packaging", "Common packaging type: " ++ m ++ "."⟩]
    | none => []

/-- The record returned for an empty input list (`services.py` 231-232). -/
def noDataRec : Recommendation :=
  ⟨"No Data", "No sufficient trade data found to generate specific recommendations."⟩

/-- The fallback appended when the list is still empty (`services.py` 319-323). -/
def generalAdviceRec : Recommendation :=
  ⟨"General Advice", "Further detailed analysis is required for specific recommendations."⟩

/-- Model of `ActAgent.generate_recommendations`. `llmRecs` is the (already filtered)
list of well-formed recommendations contributed by the language-model
collaborator; a failed or malformed model call contributes `[]`. -/
def generate_recommendations (records : List TradeDataRecord) (pq : ParsedQuery)
    (llmRecs : List Recommendation) : Except PyError (List Recommendation) :=
  if records.isEmpty then Except.ok [noDataRec]
  else
    match step1 records pq with
    | Except.error e => Except.error e
    | Except.ok topRecs =>
        let all := topRecs ++ freightRecs records ++ packageRecs records ++ llmRecs
        Except.ok (if all.isEmpty then [generalAdviceRec] else all)

/-! Section: Aggregator lemmas -/

theorem mem_uniqKeysAux (x : String) :
    ∀ (l acc : List String), x ∈ uniqKeysAux acc l ↔ x ∈ acc ∨ x ∈ l := by
  intro l
  induction l with
  | nil => intro acc; simp [uniqKeysAux]
  | cons k ks ih =>
      intro acc
      by_cases hk : k ∈ acc
      · rw [uniqKeysAux, if_pos hk, ih]
        simp only [List.mem_cons]
        constructor
        · rintro (h | h)
          · exact Or.inl h
          · exact Or.inr (Or.inr h)
        · rintro (h | h | h)
          · exact Or.inl h
          · exact Or.inl (by rw [h]; exact hk)
          · exact Or.inr h
      · rw [uniqKeysAux, if_neg hk, ih]
        simp only [List.mem_cons]
        tauto

theorem mem_uniqKeys (x : String) (l : List String) : x ∈ uniqKeys l ↔ x ∈ l := by
  rw [uniqKeys, mem_uniqKeysAux]
  simp

theorem charListLe_refl : ∀ l : List Char, charListLe l l = true := by
  intro l
  induction l with
  | nil => rfl
  | cons a as ih => simp [charListLe, ih]

theorem charListLe_cons_iff (a b : Char) (as bs : List Char) :
    charListLe (a :: as) (b :: bs) = true ↔
      a.toNat < b.toNat ∨ (a.toNat = b.toNat ∧ charListLe as bs = true) := by
  simp only [charListLe]
  by_cases h1 : a.toNat < b.toNat
  · simp [h1]
  · by_cases h2 : a.toNat = b.toNat
    · simp [h1, h2]
    · simp [h1, h2]

theorem charListLe_total : ∀ as bs : List Char,
    charListLe as bs = true ∨ charListLe bs as = true := by
  intro as
  induction as with
  | nil => intro bs; exact Or.inl rfl
  | cons a as ih =>
      intro bs
      cases bs with
      | nil => exact Or.inr rfl
      | cons b bs =>
          rcases Nat.lt_trichotomy a.toNat b.toNat with h | h | h
          · exact Or.inl ((charListLe_cons_iff a b as bs).mpr (Or.inl h))
          · rcases ih bs with h2 | h2
            · exact Or.inl ((charListLe_cons_iff a b as bs).mpr (Or.inr ⟨h, h2⟩))
            · exact Or.inr ((charListLe_cons_iff b a bs as).mpr (Or.inr ⟨h.symm, h2⟩))
          · exact Or.inr ((charListLe_cons_iff b a bs as).mpr (Or.inl h))

theorem charListLe_trans : ∀ as bs cs : List Char,
    charListLe as bs = true → charListLe bs cs = true → charListLe as cs = true := by
  intro as
  induction as with
  | nil => intro bs cs h1 h2; rfl
  | cons a as ih =>
      intro bs cs h1 h2
      cases bs with
      | nil => simp [charListLe] at h1
      | cons b bs =>
          cases cs with
          | nil => simp [charListLe] at h2
          | cons c cs =>
              rw [charListLe_cons_iff] at h1 h2 ⊢
              rcases h1 with h1 | ⟨h1e, h1r⟩
              · rcases h2 with h2 | ⟨h2e, h2r⟩
                · exact Or.inl (lt_trans h1 h2)
                · exact Or.inl (by rw [← h2e]; exact h1)
              · rcases h2 with h2 | ⟨h2e, h2r⟩
                · exact Or.inl (by rw [h1e]; exact h2)
                · exact Or.inr ⟨h1e.trans h2e, ih bs cs h1r h2r⟩

theorem strle_refl (a : String) : strle a a := charListLe_refl a.data

instance : IsTotal String strle := ⟨fun a b => charListLe_total a.data b.data⟩

instance : IsTrans String strle :=
  ⟨fun a b c h1 h2 => charListLe_trans a.data b.data c.data h1 h2⟩

theorem exists_argmax {α : Type} (f : α → Nat) :
    ∀ (l : List α), l ≠ [] → ∃ v ∈ l, ∀ w ∈ l, f w ≤ f v := by
  intro l
  induction l with
  | nil => intro h; exact absurd rfl h
  | cons a as ih =>
      intro _
      cases as with
      | nil =>
          refine ⟨a, List.mem_singleton_self a, ?_⟩
          intro w hw
          rw [List.mem_singleton.mp hw]
      | cons b bs =>
          obtain ⟨v, hv, hmax⟩ := ih (by simp)
          by_cases hav : f a ≤ f v
          · refine ⟨v, List.mem_cons_of_mem a hv, ?_⟩
            intro w hw
            rcases List.mem_cons.mp hw with h | h
            · rw [h]; exact hav
            · exact hmax w h
          · refine ⟨a, List.mem_cons_self a _, ?_⟩
            intro w hw
            rcases List.mem_cons.mp hw with h | h
            · rw [h]
            · exact le_trans (hmax w h) (le_of_not_le hav)

/-- What it means for `m` to be the value pandas `mode().iloc[0]` returns:
present, maximally frequent, and lexicographically least among the
maximally frequent values. -/
def modeSpec (vals : List String) (m : String) : Prop :=
  m ∈ vals ∧ (∀ v ∈ vals, vals.count v ≤ vals.count m) ∧
    (∀ v ∈ vals, vals.count v = vals.count m → strle m v)

theorem modeVal_spec (vals : List String) (h : vals ≠ []) :
    ∃ m, modeVal vals = some m ∧ modeSpec vals m := by
  have hmemd : ∀ x, x ∈ uniqKeys vals ↔ x ∈ vals := fun x => mem_uniqKeys x vals
  have hdne : uniqKeys vals ≠ [] := by
    intro hnil
    cases vals with
    | nil => exact h rfl
    | cons a as =>
        have ha : a ∈ uniqKeys (a :: as) := (hmemd a).mpr (List.mem_cons_self a as)
        rw [hnil] at ha
        exact absurd ha (List.not_mem_nil a)
  obtain ⟨v, hv, hmax⟩ := exists_argmax (fun w => vals.count w) (uniqKeys vals) hdne
  have hvP : (decide (∀ u ∈ uniqKeys vals, vals.count u ≤ vals.count v)) = true := by
    simp only [decide_eq_true_eq]
    exact hmax
  have hfilter_ne :
      ((uniqKeys vals).filter
        (fun w => decide (∀ u ∈ uniqKeys vals, vals.count u ≤ vals.count w))) ≠ [] := by
    intro hnil
    have hvf : v ∈ (uniqKeys vals).filter
        (fun w => decide (∀ u ∈ uniqKeys vals, vals.count u ≤ vals.count w)) :=
      List.mem_filter.mpr ⟨hv, hvP⟩
    rw [hnil] at hvf
    exact absurd hvf (List.not_mem_nil v)
  have hsorted_ne :
      List.insertionSort strle
        ((uniqKeys vals).filter
          (fun w => decide (∀ u ∈ uniqKeys vals, vals.count u ≤ vals.count w))) ≠ [] := by
    intro hnil
    have hperm := List.perm_insertionSort strle
      ((uniqKeys vals).filter
        (fun w => decide (∀ u ∈ uniqKeys vals, vals.count u ≤ vals.count w)))
    rw [hnil] at hperm
    exact hfilter_ne hperm.nil_eq.symm
  cases hsorted : List.insertionSort strle
      ((uniqKeys vals).filter
        (fun w => decide (∀ u ∈ uniqKeys vals, vals.count u ≤ vals.count w))) with
  | nil => exact absurd hsorted hsorted_ne
  | cons m rest =>
      have hm_mem : m ∈ m :: rest := List.mem_cons_self m rest
      rw [← hsorted, List.mem_insertionSort, List.mem_filter] at hm_mem
      obtain ⟨hmd, hmP⟩ := hm_mem
      have hmmax : ∀ u ∈ uniqKeys vals, vals.count u ≤ vals.count m := by
        simpa only [decide_eq_true_eq] using hmP
      refine ⟨m, ?_, (hmemd m).mp hmd, ?_, ?_⟩
      · rw [modeVal, hsorted]
        rfl
      · intro u hu
        exact hmmax u ((hmemd u).mpr hu)
      · intro u hu hcount
        have huP : (decide (∀ w ∈ uniqKeys vals, vals.count w ≤ vals.count u)) = true := by
          simp only [decide_eq_true_eq]
          intro w hw
          rw [hcount]
          exact hmmax w hw
        have huf : u ∈ m :: rest := by
          rw [← hsorted, List.mem_insertionSort, List.mem_filter]
          exact ⟨(hmemd u).mpr hu, huP⟩
        have hsort : List.Sorted strle (m :: rest) := by
          rw [← hsorted]
          exact List.sorted_insertionSort strle _
        rcases List.mem_cons.mp huf with h | h
        · rw [h]; exact strle_refl m
        · exact (List.sorted_cons.mp hsort).1 u h

theorem topCountries_length (records : List TradeDataRecord) :
    (topCountries records).length ≤ 3 :=
  List.length_take_le 3 _

theorem topCountries_sorted (records : List TradeDataRecord) :
    List.Sorted valDesc (topCountries records) :=
  (List.sorted_insertionSort valDesc (groupSums records)).take

theorem topCountries_mem {records : List TradeDataRecord} {cv : String × ℚ}
    (h : cv ∈ topCountries records) : ∃ r ∈ records, r.country = some cv.1 := by
  rw [topCountries] at h
  have h2 := List.mem_of_mem_take h
  rw [List.mem_insertionSort, groupSums] at h2
  obtain ⟨c, hc, hcv⟩ := List.mem_map.mp h2
  rw [groupKeys, List.mem_insertionSort, mem_uniqKeys] at hc
  obtain ⟨r, hr, hrc⟩ := List.mem_filterMap.mp hc
  refine ⟨r, hr, ?_⟩
  rw [← hcv]
  exact hrc

theorem topCountries_ne_nil {records : List TradeDataRecord}
    (h : countryPresent records = true) : (topCountries records).isEmpty = false := by
  obtain ⟨r, hr, hsome⟩ := List.any_eq_true.mp h
  obtain ⟨c, hc⟩ := Option.isSome_iff_exists.mp hsome
  have hcm : c ∈ groupKeys records := by
    rw [groupKeys, List.mem_insertionSort, mem_uniqKeys]
    exact List.mem_filterMap.mpr ⟨r, hr, hc⟩
  have hgs : (c, countrySum records c) ∈ groupSums records :=
    List.mem_map.mpr ⟨c, hcm, rfl⟩
  have hsorted : (c, countrySum records c) ∈ List.insertionSort valDesc (groupSums records) :=
    (List.mem_insertionSort valDesc).mpr hgs
  rw [topCountries]
  cases hs : List.insertionSort valDesc (groupSums records) with
  | nil => rw [hs] at hsorted; exact absurd hsorted (List.not_mem_nil _)
  | cons x xs => rfl

theorem volume_spec_mem :
    (⟨"volume_usd", "volume_usd", fun r => r.volume_usd.map Value.num⟩ : FieldSpec) ∈
      fieldSpecs := by
  unfold fieldSpecs
  exact List.Mem.tail _ (List.Mem.head _)

theorem dumpFields_ne_nil {r : TradeDataRecord} (h : r.volume_usd.isSome = true) :
    (dumpFields r).isEmpty = false := by
  cases hd : dumpFields r with
  | cons a as => rfl
  | nil =>
      exfalso
      have hall := List.filterMap_eq_nil_iff.mp hd
      have h2 := hall _ volume_spec_mem
      simp only [Option.map_eq_none'] at h2
      rw [h2] at h
      simp at h

theorem volumePresent_dfNonEmpty {records : List TradeDataRecord}
    (h : volumePresent records = true) : dfNonEmpty records = true := by
  obtain ⟨r, hr, hsome⟩ := List.any_eq_true.mp h
  exact List.any_eq_true.mpr ⟨r, hr, by rw [dumpFields_ne_nil hsome]; rfl⟩

theorem countryPresent_ne_nil {records : List TradeDataRecord}
    (h : countryPresent records = true) : records.isEmpty = false := by
  obtain ⟨r, hr, _⟩ := List.any_eq_true.mp h
  cases records with
  | nil => exact absurd hr (List.not_mem_nil r)
  | cons x xs => rfl

theorem step1_ok {records : List TradeDataRecord} {pq : ParsedQuery} {s : String}
    (hv : volumePresent records = true) (hc : countryPresent records = true)
    (hi : pq.intent = some s) :
    step1 records pq = Except.ok [topMarketsRec records s] := by
  rw [step1, volumePresent_dfNonEmpty hv, hv, hc, topCountries_ne_nil hc, hi]
  rfl

theorem generate_recommendations_ok_inv {records : List TradeDataRecord}
    {pq : ParsedQuery} {llmRecs l : List Recommendation}
    (hne : records.isEmpty = false)
    (h : generate_recommendations records pq llmRecs = Except.ok l) :
    ∃ topRecs, step1 records pq = Except.ok topRecs ∧
      l = (if (topRecs ++ freightRecs records ++ packageRecs records ++ llmRecs).isEmpty
           then [generalAdviceRec]
           else topRecs ++ freightRecs records ++ packageRecs records ++ llmRecs) := by
  rw [generate_recommendations, hne] at h
  cases hstep : step1 records pq with
  | error e => rw [hstep] at h; simp at h
  | ok topRecs =>
      rw [hstep] at h
      simp only [Bool.false_eq_true, if_false, Except.ok.injEq] at h
      exact ⟨topRecs, rfl, h.symm⟩

/-- C3 (amended): when at least one record carries a volume, at least one
record carries a country, and the query intent is present, the top-markets
step emits one Recommendation — the head of the returned list — built from
`topCountries`, which has at most 3 entries, is sorted descending by summed
volume (absent volumes coerced to 0), and only lists countries appearing in
the input records. -/
theorem top_markets_amended (records : List TradeDataRecord) (pq : ParsedQuery)
    (llmRecs : List Recommendation) (s : String)
    (hv : volumePresent records = true) (hc : countryPresent records = true)
    (hi : pq.intent = some s) :
    (∃ l, generate_recommendations records pq llmRecs = Except.ok l ∧
      l.head? = some (topMarketsRec records s)) ∧
    (topCountries records).length ≤ 3 ∧
    List.Sorted valDesc (topCountries records) ∧
    (∀ cv ∈ topCountries records, ∃ r ∈ records, r.country = some cv.1) := by
  refine ⟨?_, topCountries_length records, topCountries_sorted records,
    fun cv hcv => topCountries_mem hcv⟩
  have hne := countryPresent_ne_nil hc
  have hstep := step1_ok hv hc hi
  rw [generate_recommendations, hne, hstep]
  simp only [Bool.false_eq_true, if_false]
  refine ⟨_, rfl, ?_⟩
  rw [List.cons_append]
  rfl

def recUSA100 : TradeDataRecord :=
  { emptyTradeRecord with country := some "USA", volume_usd := some 100 }

theorem top_markets_amended_witness :
    volumePresent [recUSA100] = true ∧ countryPresent [recUSA100] = true ∧
    pqImportGermany.intent = some "import" ∧
    ((∃ l, generate_recommendations [recUSA100] pqImportGermany [] = Except.ok l ∧
      l.head? = some (topMarketsRec [recUSA100] "import")) ∧
    (topCountries [recUSA100]).length ≤ 3 ∧
    List.Sorted valDesc (topCountries [recUSA100]) ∧
    (∀ cv ∈ topCountries [recUSA100], ∃ r ∈ [recUSA100], r.country = some cv.1)) :=
  ⟨rfl, rfl, rfl, top_markets_amended [recUSA100] pqImportGermany [] "import" rfl rfl rfl⟩

def recVolOnly : TradeDataRecord := { emptyTradeRecord with volume_usd := some 5 }

/-- C3 counterexample: a record list with a volume but no country satisfies
the claim's hypothesis, yet `generate_recommendations` raises `KeyError`
(`df.groupby('country')` on a frame without that column) instead of emitting
a top-markets Recommendation. -/
theorem top_markets_counterexample :
    volumePresent [recVolOnly] = true ∧
    generate_recommendations [recVolOnly] pqImportGermany [] =
      Except.error PyError.keyError :=
  ⟨rfl, rfl⟩

/-- C4 (amended): whenever `generate_recommendations` returns normally the
returned list is non-empty, and an empty input list yields exactly the one
"No Data" fallback Recommendation. The unamended universal claim fails
because the call can raise instead of returning (see the counterexample). -/
theorem recommendations_nonempty_amended (records : List TradeDataRecord)
    (pq : ParsedQuery) (llmRecs : List Recommendation) :
    (records = [] → generate_recommendations records pq llmRecs = Except.ok [noDataRec]) ∧
    (∀ l, generate_recommendations records pq llmRecs = Except.ok l → l ≠ []) := by
  constructor
  · intro h
    rw [h]
    rfl
  · intro l h
    cases hne : records.isEmpty with
    | true =>
        rw [List.isEmpty_iff] at hne
        rw [hne] at h
        have : Except.ok (ε := PyError) [noDataRec] = Except.ok l := h
        simp only [Except.ok.injEq] at this
        rw [← this]
        simp
    | false =>
        obtain ⟨topRecs, hstep, hl⟩ := generate_recommendations_ok_inv hne h
        rw [hl]
        cases hall : (topRecs ++ freightRecs records ++ packageRecs records ++ llmRecs).isEmpty with
        | true => simp
        | false =>
            simp only [Bool.false_eq_true, if_false]
            exact List.isEmpty_eq_false.mp hall

theorem recommendations_nonempty_amended_witness :
    generate_recommendations [] pqExportUSA [] = Except.ok [noDataRec] ∧
    ([noDataRec] : List Recommendation) ≠ [] := by
  have h := recommendations_nonempty_amended [] pqExportUSA []
  exact ⟨h.1 rfl, h.2 [noDataRec] (h.1 rfl)⟩

def recVol42 : TradeDataRecord := { emptyTradeRecord with volume_usd := some 42 }

/-- C4 counterexample: for a non-empty input whose records carry volumes but
no countries, `generate_recommendations` raises `KeyError` rather than
returning any (non-empty) recommendation list. -/
theorem recommendations_crash_counterexample :
    generate_recommendations [recVol42] pqExportUSA [] =
      Except.error PyError.keyError := rfl

def recCountryVolume : TradeDataRecord :=
  { emptyTradeRecord with country := some "USA", volume_usd := some 100000 }

def pqNoIntent : ParsedQuery := ⟨none, none, none, none, []⟩

/-- C9: with data present but the query intent absent, the top-markets step
evaluates `parsed_query.intent + ("ing" if parsed_query.intent else "")`,
i.e. `None + ""`, and raises `TypeError` instead of degrading to a neutral
title, so `generate_recommendations` does not return normally. -/
theorem intent_absent_typeerror :
    generate_recommendations [recCountryVolume] pqNoIntent [] =
      Except.error PyError.typeError := rfl

theorem freightRecs_eq {records : List TradeDataRecord} {m : String}
    (hvals : records.filterMap (fun r => r.freight_term) ≠ [])
    (hm : modeVal (records.filterMap (fun r => r.freight_term)) = some m) :
    freightRecs records =
      [⟨"Common Freight Terms", "Most frequently observed freight term: " ++ m ++ "."⟩] := by
  rw [freightRecs, List.isEmpty_eq_false.mpr hvals, hm]
  rfl

theorem packageRecs_eq {records : List TradeDataRecord} {m : String}
    (hvals : records.filterMap (fun r => r.package_type) ≠ [])
    (hm : modeVal (records.filterMap (fun r => r.package_type)) = some m) :
    packageRecs records = [⟨"Typical Packaging", "Common packaging type: " ++ m ++ "."⟩] := by
  rw [packageRecs, List.isEmpty_eq_false.mpr hvals, hm]
  rfl

/-- The amended modal-field property at an output list `l`: for each of the
two categorical fields, if some record has the field, the list contains one
Recommendation naming the maximally frequent value, ties broken in favour of
the lexicographically least value (which is what pandas `mode().iloc[0]`
returns — not the first-encountered value). -/
def modeClaimAt (records : List TradeDataRecord) (l : List Recommendation) : Prop :=
  (records.filterMap (fun r => r.freight_term) ≠ [] →
    ∃ m, modeVal (records.filterMap (fun r => r.freight_term)) = some m ∧
      modeSpec (records.filterMap (fun r => r.freight_term)) m ∧
      (⟨"Common Freight Terms",
        "Most frequently observed freight term: " ++ m ++ "."⟩ : Recommendation) ∈ l) ∧
  (records.filterMap (fun r => r.package_type) ≠ [] →
    ∃ m, modeVal (records.filterMap (fun r => r.package_type)) = some m ∧
      modeSpec (records.filterMap (fun r => r.package_type)) m ∧
      (⟨"Typical Packaging", "Common packaging type: " ++ m ++ "."⟩ : Recommendation) ∈ l)

/-- C8 (amended): whenever `generate_recommendations` returns normally and a
categorical field (`freight_term`, `package_type`) has at least one present
value, the returned list names that field's most frequent value, with ties
broken by the lexicographically least value rather than the
first-encountered one. -/
theorem mode_recommendation_amended (records : List TradeDataRecord) (pq : ParsedQuery)
    (llmRecs : List Recommendation) (l : List Recommendation)
    (h : generate_recommendations records pq llmRecs = Except.ok l) :
    modeClaimAt records l := by
  have hne : records.filterMap (fun r => r.freight_term) ≠ [] → records.isEmpty = false := by
    intro hvals
    cases records with
    | nil => simp at hvals
    | cons x xs => rfl
  have hne2 : records.filterMap (fun r => r.package_type) ≠ [] → records.isEmpty = false := by
    intro hvals
    cases records with
    | nil => simp at hvals
    | cons x xs => rfl
  constructor
  · intro hvals
    obtain ⟨m, hm, hspec⟩ := modeVal_spec _ hvals
    obtain ⟨topRecs, hstep, hl⟩ := generate_recommendations_ok_inv (hne hvals) h
    have hfr := freightRecs_eq hvals hm
    refine ⟨m, hm, hspec, ?_⟩
    have hallne : (topRecs ++ freightRecs records ++ packageRecs records ++ llmRecs) ≠ [] := by
      rw [hfr]
      simp
    rw [hl, List.isEmpty_eq_false.mpr hallne]
    simp only [Bool.false_eq_true, if_false]
    rw [hfr]
    simp [List.mem_append]
  · intro hvals
    obtain ⟨m, hm, hspec⟩ := modeVal_spec _ hvals
    obtain ⟨topRecs, hstep, hl⟩ := generate_recommendations_ok_inv (hne2 hvals) h
    have hpk := packageRecs_eq hvals hm
    refine ⟨m, hm, hspec, ?_⟩
    have hallne : (topRecs ++ freightRecs records ++ packageRecs records ++ llmRecs) ≠ [] := by
      rw [hpk]
      simp
    rw [hl, List.isEmpty_eq_false.mpr hallne]
    simp only [Bool.false_eq_true, if_false]
    rw [hpk]
    simp [List.mem_append]

def recFOBCartons : TradeDataRecord :=
  { emptyTradeRecord with freight_term := some "FOB", package_type := some "Cartons" }

theorem mode_recommendation_amended_witness :
    generate_recommendations [recFOBCartons] pqNoIntent [] = Except.ok
      [⟨"Common Freight Terms", "Most frequently observed freight term: FOB."⟩,
       ⟨"Typical Packaging", "Common packaging type: Cartons."⟩] ∧
    modeClaimAt [recFOBCartons]
      [⟨"Common Freight Terms", "Most frequently observed freight term: FOB."⟩,
       ⟨"Typical Packaging", "Common packaging type: Cartons."⟩] :=
  ⟨rfl, mode_recommendation_amended [recFOBCartons] pqNoIntent [] _ rfl⟩

def recFOB : TradeDataRecord := { emptyTradeRecord with freight_term := some "FOB" }

def recCIF : TradeDataRecord := { emptyTradeRecord with freight_term := some "CIF" }

/-- C8 counterexample: with the tied freight terms encountered in the order
"FOB", "CIF", the claim's first-encountered tie-break predicts "FOB", but
the code (pandas sorts the tied modes and takes `iloc[0]`) emits "CIF". -/
theorem mode_tie_counterexample :
    [recFOB, recCIF].filterMap (fun r => r.freight_term) = ["FOB", "CIF"] ∧
    generate_recommendations [recFOB, recCIF] pqNoIntent [] = Except.ok
      [⟨"Common Freight Terms", "Most frequently observed freight term: CIF."⟩] :=
  ⟨rfl, rfl⟩

/-! Section: Report Exporter (`ActAgent.export_to_excel`) and claim C5 -/

/-- The column set of the table written by `export_to_excel`
(`services.py` 334-357): no columns for an empty input; the union of the
labels present in at least one aliased exclude-none dump; except that when
every record dumps empty (the frame is empty with data present) the code
substitutes a frame carrying all field labels as headers. -/
def export_to_excel_columns (records : List TradeDataRecord) : List String :=
  if records.isEmpty then []
  else if records.all (fun r => (dumpByAlias r).isEmpty) then
    fieldSpecs.map (fun s => s.label)
  else uniqKeys (records.flatMap (fun r => (dumpByAlias r).map Prod.fst))

/-- The exporter property of the claim, at a record list: a label is a column
exactly when some record has that field present. -/
def columnsMatchPresent (records : List TradeDataRecord) : Prop :=
  ∀ c, c ∈ export_to_excel_columns records ↔
    ∃ s ∈ fieldSpecs, s.label = c ∧ ∃ r ∈ records, (s.getter r).isSome = true

/-- C5 (amended): for a non-empty record list in which at least one record
has at least one present field, the exporter's column set is exactly the set
of field labels with a present value in some record. (Without that proviso
the claim fails: the all-absent degenerate case emits every label as a
header — see the counterexample.) -/
theorem export_columns_amended (records : List TradeDataRecord)
    (hne : records ≠ [])
    (hsome : ¬ records.all (fun r => (dumpByAlias r).isEmpty) = true) :
    columnsMatchPresent records := by
  intro c
  rw [export_to_excel_columns, List.isEmpty_eq_false.mpr hne]
  simp only [Bool.false_eq_true, if_false]
  rw [if_neg hsome, mem_uniqKeys]
  constructor
  · intro hc
    obtain ⟨r, hr, hcr⟩ := List.mem_flatMap.mp hc
    obtain ⟨e, he, hec⟩ := List.mem_map.mp hcr
    obtain ⟨s, hs, hgs⟩ := List.mem_filterMap.mp he
    obtain ⟨v, hv, hev⟩ := Option.map_eq_some'.mp hgs
    refine ⟨s, hs, ?_, r, hr, ?_⟩
    · rw [← hec, ← hev]
    · rw [hv]
      rfl
  · rintro ⟨s, hs, hlabel, r, hr, hget⟩
    obtain ⟨v, hv⟩ := Option.isSome_iff_exists.mp hget
    apply List.mem_flatMap.mpr
    refine ⟨r, hr, ?_⟩
    apply List.mem_map.mpr
    refine ⟨(s.label, v), ?_, hlabel⟩
    apply List.mem_filterMap.mpr
    refine ⟨s, hs, ?_⟩
    rw [hv]
    rfl

theorem export_columns_amended_witness :
    [recUSA100] ≠ [] ∧
    ¬ [recUSA100].all (fun r => (dumpByAlias r).isEmpty) = true ∧
    columnsMatchPresent [recUSA100] :=
  ⟨List.cons_ne_nil recUSA100 [], by decide,
   export_columns_amended [recUSA100] (List.cons_ne_nil recUSA100 []) (by decide)⟩

/-- C5 counterexample: on a non-empty list whose single record has every
field absent, every field label — "country" among them — appears as a
column even though the field is absent in every record, contradicting the
claim's "a field absent everywhere never appears as a column". -/
theorem export_columns_degenerate_counterexample :
    "country" ∈ export_to_excel_columns [emptyTradeRecord] ∧
    (dumpByAlias emptyTradeRecord).isEmpty = true := by
  constructor
  · decide
  · rfl

/-! Section: Query Intent Extractor (`PerceiveAgent.parse_query`) and claim C7 -/

/-- The structured reply of the language-model collaborator after JSON
parsing; `Except.error` stands for any malformed reply or extraction
failure (the `except` branches of `parse_query`). -/
structure ModelReply where
  hsn_code : Option String
  product_name : Option String
  country : Option String
  intent : Option String
  keywords : List String

/-- Model of `PerceiveAgent.parse_query`: builds the ParsedQuery directly from the
model reply (`ParsedQuery(**parsed_data)`), or returns the all-absent
default on any failure. The code applies no validation to any field. -/
def parse_query (reply : Except Unit ModelReply) : ParsedQuery :=
  match reply with
  | Except.error _ => ⟨none, none, none, none, []⟩
  | Except.ok d => ⟨d.hsn_code, d.product_name, d.country, d.intent, d.keywords⟩

/-- The two-literal schema the spec asserts for the intent field. -/
def intentWithinSchema (o : Option String) : Prop :=
  o = none ∨ o = some "import" ∨ o = some "export"

/-- C7 (amended): `parse_query` forwards the model reply's intent unchanged
(absent on a malformed reply), so the produced intent is absent or one of
the two literals exactly when the model reply's own intent is; the extractor
itself enforces nothing. -/
theorem parse_query_intent_amended (reply : Except Unit ModelReply)
    (h : ∀ d, reply = Except.ok d → intentWithinSchema d.intent) :
    intentWithinSchema (parse_query reply).intent := by
  cases reply with
  | error e => exact Or.inl rfl
  | ok d => exact h d rfl

theorem parse_query_intent_amended_witness :
    intentWithinSchema
      (parse_query (Except.ok ⟨none, none, none, some "import", []⟩)).intent := by
  apply parse_query_intent_amended
  intro d hd
  cases hd
  exact Or.inr (Or.inl rfl)

/-- C7 counterexample: a model reply carrying intent "transit" flows through
unvalidated, so the produced ParsedQuery's intent is neither absent nor one
of the two literal values. -/
theorem parse_query_intent_counterexample :
    ¬ intentWithinSchema
        (parse_query (Except.ok ⟨none, none, none, some "transit", []⟩)).intent := by
  unfold intentWithinSchema
  decide

end ImportExport
